import Mathlib

/-!
Verification of the `KB_to_CNF.py` knowledge-base-to-CNF / resolution program.

The program rewrites first-order-looking formula *strings* with Python regular
expressions and runs a string-based resolution loop over clauses represented as
Python sets of literal strings.  This file is a shallow embedding of that code:

* a Python string is a `Str` (`List Char`);
* each `re.sub`/`re.findall` call site is embedded by a dedicated matcher that
  implements exactly the pattern used there (the patterns only use literal
  characters, `(.?)`, `(.*?)`, `\s`, `\b`, `$`, and alternation `(∀|∃)`),
  together with generic left-to-right, non-overlapping drivers mirroring
  Python's `re.sub` / `re.findall` semantics (leftmost match, backtracking
  inside a match, continue after the match end);
* a Python set of strings is a duplicate-free `List Str` (`Clause`); Python
  sets are unordered, so the enumeration order used here is fixed arbitrarily,
  and every fact proved below about clause sets is order-independent
  (emptiness tests, membership of the empty set, boolean verdicts);
* Python exceptions (the `TypeError` raised by `set.update` on a list of
  unhashable `set` elements, and the `IndexError` of `list.pop(0)` on an empty
  list) are modelled by `Option`/`none`.
-/

abbrev Str : Type := List Char

/-- Convert a Lean string literal to the character-list representation. -/
def str (s : String) : Str := s.data

/-- Python's `\s` restricted to the ASCII whitespace characters; the
repository's formulas contain no other whitespace. -/
def isSpaceC (c : Char) : Bool :=
  c == ' ' || c == '\t' || c == '\n' || c == '\r' || c == '\x0b' || c == '\x0c'

/-- Python's `\w` restricted to ASCII alphanumerics and underscore; the
repository's formulas contain no other word characters.  The connective and
quantifier symbols (`∀ ∃ ¬ ∧ ∨ ⇒ ⇔`) are not word characters, as in Python. -/
def isWordChar (c : Char) : Bool := c.isAlphanum || c == '_'

/-- Word-character test on an optional character (`none` = string edge). -/
def wordP : Option Char → Bool
  | none => false
  | some c => isWordChar c

/-- Does `p` occur at the start of `s`? (literal prefix test). -/
def startsWith : Str → Str → Bool
  | [], _ => true
  | _ :: _, [] => false
  | a :: as, b :: bs => a == b && startsWith as bs

/-- Does `n` occur anywhere inside `h`? This embeds `re.search` on a
regex-escaped (hence literal) pattern. -/
def containsSub (n : Str) : Str → Bool
  | [] => n.isEmpty
  | c :: cs => startsWith n (c :: cs) || containsSub n cs

/-- Generic `re.sub` driver.  `m s` returns `some (replacement, rest)` when the
pattern matches a prefix of `s` (every matcher below consumes at least one
character).  Scans left to right, replaces non-overlapping matches, and
continues after each match, as Python does.  `fuel` bounds the recursion; it is
initialised to the string length, which suffices because every step consumes at
least one character. -/
def reSubGo (m : Str → Option (Str × Str)) : Nat → Str → Str
  | 0, s => s
  | _ + 1, [] => []
  | n + 1, c :: cs =>
    match m (c :: cs) with
    | some (rep, rest) => rep ++ reSubGo m n rest
    | none => c :: reSubGo m n cs

/-- `re.sub(pattern, repl, s)` for the matcher `m` embedding the pattern. -/
def reSub (m : Str → Option (Str × Str)) (s : Str) : Str := reSubGo m s.length s

/-- Generic `re.findall` driver: leftmost non-overlapping matches, returning
the tuple of captured groups of each match. -/
def findAllGo {γ : Type} (m : Str → Option (γ × Str)) : Nat → Str → List γ
  | 0, _ => []
  | _ + 1, [] => []
  | n + 1, c :: cs =>
    match m (c :: cs) with
    | some (g, rest) => g :: findAllGo m n rest
    | none => findAllGo m n cs

/-- `re.findall(pattern, s)` for the matcher `m` embedding the pattern. -/
def findAll {γ : Type} (m : Str → Option (γ × Str)) (s : Str) : List γ :=
  findAllGo m s.length s

/-- Python `str.replace(target, repl)`: replace every non-overlapping
occurrence, left to right.  For an empty target Python inserts `repl` before
every character and at the end; that case is written out explicitly. -/
def replaceAll (target repl : Str) (s : Str) : Str :=
  match target with
  | [] => repl ++ s.foldr (fun c acc => c :: repl ++ acc) []
  | _ :: _ =>
    reSub (fun t => if startsWith target t then some (repl, t.drop target.length) else none) s

/-- Python `str.split(sep)` for a single-character separator (keeps empty
pieces, as Python does). -/
def splitChar (sep : Char) : Str → List Str
  | [] => [[]]
  | c :: cs =>
    match splitChar sep cs with
    | h :: t => if c == sep then [] :: h :: t else (c :: h) :: t
    | [] => [[]]

/-- Python `str.split(sep)` for a multi-character separator (fuelled). -/
def splitOnSubGo (sep : Str) : Nat → Str → List Str
  | 0, s => [s]
  | _ + 1, [] => [[]]
  | n + 1, c :: cs =>
    if startsWith sep (c :: cs) then
      [] :: splitOnSubGo sep n ((c :: cs).drop sep.length)
    else
      match splitOnSubGo sep n cs with
      | h :: t => (c :: h) :: t
      | [] => [[c]]

/-- Python `str.split(sep)`; `sep` is non-empty at every call site. -/
def splitOnSub (sep : Str) (s : Str) : List Str := splitOnSubGo sep s.length s

/-- Keep the first occurrence of each element, preserving order.  This is the
enumeration chosen for Python sets and dict keys (`dict` preserves insertion
order; `set` is unordered, so any fixed enumeration is faithful for the
order-independent facts proved below). -/
def dedupFirst {α : Type} [DecidableEq α] : List α → List α
  | [] => []
  | x :: xs => if x ∈ dedupFirst xs then dedupFirst xs else x :: dedupFirst xs

/-- `' '.join(parts)`. -/
def joinSpace : List Str → Str
  | [] => []
  | [x] => x
  | x :: xs => x ++ ' ' :: joinSpace xs

/-! ### Matcher building blocks -/

/-- Regex fragment `(.?)` followed by the literal `lit`; backtracking tries the
one-character capture first, then the empty capture.  Returns the capture and
the rest after the literal. -/
def optCharThen (lit : Str) : Str → Option (Str × Str)
  | [] => if lit.isEmpty then some ([], []) else none
  | c :: cs =>
    if c != '\n' && startsWith lit cs then some ([c], cs.drop lit.length)
    else if startsWith lit (c :: cs) then some ([], (c :: cs).drop lit.length)
    else none

/-- Regex fragment `(.?)` at the end of a pattern (greedy, nothing after it). -/
def optCharEnd : Str → Str × Str
  | [] => ([], [])
  | c :: cs => if c != '\n' then ([c], cs) else ([], c :: cs)

/-- Regex fragment `(.?)\s`: optional character, then one whitespace
character.  Returns the capture and the rest after the whitespace. -/
def optCharThenSpace : Str → Option (Str × Str)
  | [] => none
  | [c] => if isSpaceC c then some ([], []) else none
  | c :: d :: cs =>
    if c != '\n' && isSpaceC d then some ([c], cs)
    else if isSpaceC c then some ([], d :: cs)
    else none

/-- Regex fragment `(.?)\b` where the previously consumed character was a
whitespace (never a word character).  Tries the one-character capture (with a
word boundary after it), then the empty capture (word boundary between the
whitespace and the current position). -/
def optCharBoundary : Str → Option (Str × Str)
  | [] => none
  | c :: cs =>
    if c != '\n' && (isWordChar c != wordP cs.head?) then some ([c], cs)
    else if isWordChar c then some ([], c :: cs)
    else none

/-- Regex fragment `(.*?)\s` (non-greedy, `.` excludes newline): the shortest
prefix of non-newline characters followed by a whitespace character.  Returns
the capture and the rest after the whitespace. -/
def minimalToSpace : Str → Option (Str × Str)
  | [] => none
  | c :: cs =>
    if isSpaceC c then some ([], cs)
    else if c == '\n' then none
    else (minimalToSpace cs).map (fun p => (c :: p.1, p.2))

/-- Regex fragment `(.*?)\)` (non-greedy): shortest run of non-newline
characters up to a closing parenthesis. -/
def minimalToClose : Str → Option (Str × Str)
  | [] => none
  | c :: cs =>
    if c == ')' then some ([], cs)
    else if c == '\n' then none
    else (minimalToClose cs).map (fun p => (c :: p.1, p.2))

/-! ### `eliminate_implication` (lines 4-9) -/

/-- Matcher and replacement for `re.sub(r'\((.?) ⇒ (.?)\)', r'(¬\1 ∨ \2)', ·)`. -/
def matchImp : Str → Option (Str × Str)
  | '(' :: r =>
    (optCharThen [' ', '⇒', ' '] r).bind fun g1 =>
      (optCharThen [')'] g1.2).map fun g2 =>
        ('(' :: '¬' :: g1.1 ++ [' ', '∨', ' '] ++ g2.1 ++ [')'], g2.2)
  | _ => none

/-- Matcher and replacement for
`re.sub(r'\((.?) ⇔ (.?)\)', r'(¬\1 ∨ \2) ∧ (¬\2 ∨ \1)', ·)`. -/
def matchIff : Str → Option (Str × Str)
  | '(' :: r =>
    (optCharThen [' ', '⇔', ' '] r).bind fun g1 =>
      (optCharThen [')'] g1.2).map fun g2 =>
        ('(' :: '¬' :: g1.1 ++ [' ', '∨', ' '] ++ g2.1 ++ [')', ' ', '∧', ' ', '(', '¬']
           ++ g2.1 ++ [' ', '∨', ' '] ++ g1.1 ++ [')'], g2.2)
  | _ => none

/-- `eliminate_implication`: the `⇒` rewrite followed by the `⇔` rewrite. -/
def eliminate_implication (s : Str) : Str := reSub matchIff (reSub matchImp s)

/-! ### `move_negation_inward` (lines 11-23) -/

/-- Matcher for `re.sub(r'¬\((.?) ∧ (.?)\)', r'(¬\1 ∨ ¬\2)', ·)`. -/
def matchNotAnd : Str → Option (Str × Str)
  | '¬' :: '(' :: r =>
    (optCharThen [' ', '∧', ' '] r).bind fun g1 =>
      (optCharThen [')'] g1.2).map fun g2 =>
        ('(' :: '¬' :: g1.1 ++ [' ', '∨', ' ', '¬'] ++ g2.1 ++ [')'], g2.2)
  | _ => none

/-- Matcher for `re.sub(r'¬\((.?) ∨ (.?)\)', r'(¬\1 ∧ ¬\2)', ·)`. -/
def matchNotOr : Str → Option (Str × Str)
  | '¬' :: '(' :: r =>
    (optCharThen [' ', '∨', ' '] r).bind fun g1 =>
      (optCharThen [')'] g1.2).map fun g2 =>
        ('(' :: '¬' :: g1.1 ++ [' ', '∧', ' ', '¬'] ++ g2.1 ++ [')'], g2.2)
  | _ => none

/-- Matcher for `re.sub(r'¬∀(.?) (.?)', r'∃\1 ¬\2', ·)`. -/
def matchNotAll : Str → Option (Str × Str)
  | '¬' :: '∀' :: r =>
    (optCharThen [' '] r).map fun g1 =>
      let g2 := optCharEnd g1.2
      ('∃' :: g1.1 ++ ' ' :: '¬' :: g2.1, g2.2)
  | _ => none

/-- Matcher for `re.sub(r'¬∃(.?) (.?)', r'∀\1 ¬\2', ·)`. -/
def matchNotEx : Str → Option (Str × Str)
  | '¬' :: '∃' :: r =>
    (optCharThen [' '] r).map fun g1 =>
      let g2 := optCharEnd g1.2
      ('∀' :: g1.1 ++ ' ' :: '¬' :: g2.1, g2.2)
  | _ => none

/-- Matcher for `re.sub(r'¬¬(.*?)', r'\1', ·)`: the non-greedy tail always
captures the empty string, so the substitution deletes each `¬¬`. -/
def matchNotNot : Str → Option (Str × Str)
  | '¬' :: '¬' :: r => some ([], r)
  | _ => none

/-- `move_negation_inward`: the five substitutions in source order. -/
def move_negation_inward (s : Str) : Str :=
  reSub matchNotNot (reSub matchNotEx (reSub matchNotAll (reSub matchNotOr (reSub matchNotAnd s))))

/-! ### `standardize_variable_scope` (lines 25-35) -/

/-- Matcher for `re.findall(r'(∀|∃)(.?)\s(.?)\b', ·)`: a quantifier symbol, an
optional character (the bound variable), a whitespace, and an optional
character followed by a word boundary.  Captures the three groups. -/
def matchQuant3 : Str → Option ((Char × Str × Str) × Str)
  | [] => none
  | c :: r =>
    if c == '∀' || c == '∃' then
      (optCharThenSpace r).bind fun g2 =>
        (optCharBoundary g2.2).map fun g3 => ((c, g2.1, g3.1), g3.2)
    else none

/-- Word boundary `\b` directly after a match ending in the last character of
`v` (`v` non-empty): boundary between that character and the character that
follows the match, or the string edge. -/
def boundAfterMatch (v : Str) (s : Str) : Bool :=
  match v.getLast? with
  | none => false
  | some l => isWordChar l != wordP (s.drop v.length).head?

/-- Driver for `re.sub(r'\b' + re.escape(v) + r'\b', rep, ·)` with a non-empty
literal `v`: replace every occurrence of `v` that sits between word
boundaries.  `prev` is the character before the current position.  For the
empty `v` the pattern `\b\b` has only zero-width matches and the replacement at
every call site is also empty (`variable_map` maps each name to itself), so the
copying behaviour below is the Python behaviour there as well. -/
def wordSubGo (v rep : Str) : Nat → Option Char → Str → Str
  | 0, _, s => s
  | _ + 1, _, [] => []
  | n + 1, prev, c :: cs =>
    if !v.isEmpty && startsWith v (c :: cs) && (wordP prev != isWordChar c)
        && boundAfterMatch v (c :: cs) then
      rep ++ wordSubGo v rep n v.getLast? ((c :: cs).drop v.length)
    else c :: wordSubGo v rep n (some c) cs

/-- `re.sub(r'\b' + re.escape(v) + r'\b', rep, s)`. -/
def wordSub (v rep : Str) (s : Str) : Str := wordSubGo v rep s.length none s

/-- `standardize_variable_scope` (lines 25-35): collect the quantifier matches,
build `variable_map` (whose keys are the captured variables in first-occurrence
order and whose values are `f'{var}'`, i.e. the variable itself), then run the
word-bounded substitution for each entry. -/
def standardize_variable_scope (s : Str) : Str :=
  let quantifiers := findAll matchQuant3 s
  let vars := dedupFirst (quantifiers.map (fun g => g.2.1))
  vars.foldl (fun f v => wordSub v v f) s

/-! ### `skolemization` (lines 69-81) -/

/-- Matcher for `re.findall(r'∃(.?)\s(.?)\b', ·)`; captures the two groups
(the loop at line 76 binds `var` to the SECOND group — the first character
after the whitespace, not the quantified variable). -/
def matchSkolemFind : Str → Option ((Str × Str) × Str)
  | [] => none
  | c :: r =>
    if c == '∃' then
      (optCharThenSpace r).bind fun g1 =>
        (optCharBoundary g1.2).map fun g2 => ((g1.1, g2.1), g2.2)
    else none

/-- Regex fragment `(.*?)\s` followed by the literal `v` (non-greedy
backtracking: the capture grows past earlier whitespace characters until a
whitespace directly followed by `v` is found).  Returns the rest after `v`. -/
def minToSpaceThenLit (v : Str) : Str → Option Str
  | [] => none
  | c :: cs =>
    if isSpaceC c && startsWith v cs then some (cs.drop v.length)
    else if c == '\n' then none
    else minToSpaceThenLit v cs

/-- Matcher for `re.sub(r'∃(.*?)\s' + re.escape(var), lambda m: '', ·)`
(line 80): the whole match is deleted. -/
def matchSkolemDel (v : Str) : Str → Option (Str × Str)
  | '∃' :: r => (minToSpaceThenLit v r).map (fun rest => ([], rest))
  | _ => none

/-- The mutable list `skolem_constants = ['A', 'B', 'C', 'D', 'E']`. -/
def skolemConstants : List Str := [['A'], ['B'], ['C'], ['D'], ['E']]

/-- The loop of `skolemization` (lines 76-80), threading the mutable constant
list.  `skolem_constants.pop(0)` on an exhausted list raises `IndexError`,
modelled as `none`. -/
def skolemGo : List (Str × Str) → List Str → Str → Option Str
  | [], _, acc => some acc
  | (_, v) :: es, consts, acc =>
    if containsSub v acc then
      skolemGo es consts (reSub (matchSkolemDel v) acc)
    else
      match consts with
      | [] => none
      | k :: ks => skolemGo es ks (replaceAll ('∃' :: v) k acc)

/-- `skolemization` (lines 69-81). -/
def skolemization (s : Str) : Option Str :=
  skolemGo (findAll matchSkolemFind s) skolemConstants s

/-! ### `move_quantifiers_left` (lines 37-44) -/

/-- Matcher for `re.findall(r'(∀|∃)(.*?)\s', ·)`: quantifier symbol and the
shortest run of non-newline characters before a whitespace. -/
def matchQuantStar : Str → Option ((Char × Str) × Str)
  | [] => none
  | c :: r =>
    if c == '∀' || c == '∃' then
      (minimalToSpace r).map (fun p => ((c, p.1), p.2))
    else none

/-- `move_quantifiers_left` (lines 37-44): delete every occurrence of each
`f'{quantifier}{var} '` from the formula, then prepend the space-joined
quantifier prefixes plus one space (for an empty quantifier list this still
prepends a single space). -/
def move_quantifiers_left (s : Str) : Str :=
  let qs := findAll matchQuantStar s
  let stripped := qs.foldl (fun f qv => replaceAll (qv.1 :: qv.2 ++ [' ']) [] f) s
  joinSpace (qs.map (fun qv => qv.1 :: qv.2)) ++ ' ' :: stripped

/-! ### `eliminate_universal_quantifiers` (lines 89-93) -/

/-- Matcher for `re.sub(r'∀(.?)\s(.?)', r'\2', ·)`: the quantified variable
(group 1) is discarded and the match is replaced by the single following
character (group 2). -/
def matchForallElim : Str → Option (Str × Str)
  | [] => none
  | c :: r =>
    if c == '∀' then
      (optCharThenSpace r).map fun g1 =>
        let g2 := optCharEnd g1.2
        (g2.1, g2.2)
    else none

/-- `eliminate_universal_quantifiers` (lines 89-93). -/
def eliminate_universal_quantifiers (s : Str) : Str := reSub matchForallElim s

/-! ### `convert_to_cnf` (lines 47-67) -/

/-- Matcher for the distribution rewrite
`re.sub(r'(.?) ∨ \((.?) ∧ (.*?)\)', r'(\1 ∨ \2) ∧ (\1 ∨ \3)', ·)`. -/
def matchDistrib (s : Str) : Option (Str × Str) :=
  (optCharThen [' ', '∨', ' ', '('] s).bind fun g1 =>
    (optCharThen [' ', '∧', ' '] g1.2).bind fun g2 =>
      (minimalToClose g2.2).map fun g3 =>
        ('(' :: g1.1 ++ [' ', '∨', ' '] ++ g2.1 ++ [')', ' ', '∧', ' ', '('] ++ g1.1
           ++ [' ', '∨', ' '] ++ g3.1 ++ [')'], g3.2)

/-- Regex fragment `(.*?)$` (non-greedy, `.` excludes newline, `$` matches at
the end of the string or before a trailing newline). -/
def capToEnd : Str → Option Str
  | [] => some []
  | ['\n'] => some []
  | c :: cs => if c == '\n' then none else (capToEnd cs).map (c :: ·)

/-- `re.search(re.escape(quantifier + ' ' + var) + r'\s(.*?)$', ·)` (line 55):
leftmost occurrence of the literal followed by a whitespace; captures to the
end of the string. -/
def searchQuantScope (lit : Str) : Str → Option Str
  | [] => none
  | c :: cs =>
    if startsWith lit (c :: cs) then
      match (c :: cs).drop lit.length with
      | d :: ds =>
        if isSpaceC d then
          match capToEnd ds with
          | some cap => some cap
          | none => searchQuantScope lit cs
        else searchQuantScope lit cs
      | [] => searchQuantScope lit cs
    else searchQuantScope lit cs

/-- Decimal rendering of `i`, as in the f-string `f'{var}_{i}'`. -/
def natToStr (i : Nat) : Str := (toString i).data

/-- One iteration of the quantifier loop of `convert_to_cnf` (lines 54-66) for
the pair `(quantifier, var)`: if the quantifier scope is found and contains a
disjunction, split it on `' ∨ '` and rename `var` to `var_i` inside each
disjunct (both quantifier branches of the source perform the same rewrite with
their own quantifier symbol, which is the matched one). -/
def cnfQuantStep (f : Str) (qv : Char × Str) : Str :=
  match searchQuantScope (qv.1 :: ' ' :: qv.2) f with
  | none => f
  | some sub =>
    if sub.contains '∨' then
      (List.enum (splitOnSub [' ', '∨', ' '] sub)).foldl
        (fun f2 idisj =>
          let nv := qv.2 ++ '_' :: natToStr idisj.1
          replaceAll (qv.1 :: qv.2 ++ ' ' :: idisj.2)
            (qv.1 :: nv ++ ' ' :: replaceAll qv.2 nv idisj.2) f2) f
    else f

/-- `convert_to_cnf` (lines 47-67): one pass of the distribution rewrite, then
the quantifier loop. -/
def convert_to_cnf (s : Str) : Str :=
  let s1 := reSub matchDistrib s
  (findAll matchQuantStar s1).foldl cnfQuantStep s1

/-! ### Clauses and the resolution engine (lines 95-137) -/

/-- A clause: a Python set of literal strings, represented as a duplicate-free
list.  Python sets are unordered; the facts proved below about clauses are
order-independent. -/
abbrev Clause : Type := List Str

/-- The Python `set(...)` constructor on a list of strings. -/
def pySet (l : List Str) : Clause := dedupFirst l

/-- Python set union `clause_i | clause_j` (both arguments duplicate-free). -/
def clUnion (a b : Clause) : Clause := a ++ b.filter (fun x => !a.contains x)

/-- Python set difference `c - {x₁, x₂, ...}`. -/
def clDiff (a : Clause) (rm : List Str) : Clause := a.filter (fun x => !rm.contains x)

/-- Python set inclusion `a <= b`. -/
def clSubsetB (a b : Clause) : Bool := a.all (fun x => b.contains x)

/-- Python set equality `a == b` (extensional). -/
def clEqB (a b : Clause) : Bool := clSubsetB a b && clSubsetB b a

/-- `clauses_from_formula` (lines 133-137): split on `∧` into conjuncts, split
each conjunct on `∨`, and build a set from the pieces. -/
def clauses_from_formula (s : Str) : List Clause :=
  (splitChar '∧' s).map (fun conj => pySet (splitChar '∨' conj))

/-- `resolve` (lines 124-131): for every pair of literals, one from each
clause, such that one is `'¬' +` the other, emit
`(clause_i | clause_j) - {literal_i, literal_j}` — note that BOTH resolved
literals are removed from the union. -/
def resolve (ci cj : Clause) : List Clause :=
  ci.flatMap (fun li =>
    cj.filterMap (fun lj =>
      if li = '¬' :: lj ∨ '¬' :: li = lj then some (clDiff (clUnion ci cj) [li, lj])
      else none))

/-- `itertools.combinations(range(n), 2)` in its lexicographic order. -/
def pairsUpTo (n : Nat) : List (Nat × Nat) :=
  (List.range n).flatMap (fun i => ((List.range n).filter (fun j => i < j)).map (fun j => (i, j)))

/-- Outcome of one sweep over the clause pairs (the body of the `while True`
loop before the saturation test). -/
inductive SweepOut : Type
  | foundEmpty : SweepOut
  | typeError : SweepOut
  | next : List Clause → SweepOut
deriving DecidableEq

/-- The pair loop (lines 112-118).  Per pair: `resolve`, then
`if set() in resolvents: return True`, then `new_clauses.update(resolvents)`.
`update` iterates over the resolvents and adds each to the set `new_clauses`;
a Python `set` element is unhashable, so the first non-empty resolvent list
that survives the empty-clause test raises `TypeError` (only the empty list
leaves `new_clauses`, the accumulator `acc`, unchanged). -/
def sweep (clauses : List Clause) : List (Nat × Nat) → List Clause → SweepOut
  | [], acc => .next acc
  | (i, j) :: rest, acc =>
    let rs := resolve (clauses.getD i []) (clauses.getD j [])
    if rs.any (fun c => c.isEmpty) then .foundEmpty
    else if rs.isEmpty then sweep clauses rest acc
    else .typeError

/-- The `while True` loop of `resolution` (lines 109-122), with an explicit
fuel for the unbounded recursion (`resolutionLoop_fuel` below shows one unit
of fuel already determines the answer).  `none` models an uncaught Python
exception.  After a sweep with no resolvents, line 119's test
`all(new_clause <= clause ...)` runs over the accumulated `new_clauses` and
line 121-122 extends the clause list and filters out members of
`new_clauses`. -/
def resolutionLoop : Nat → List Clause → Option Bool
  | 0, _ => none
  | fuel + 1, clauses =>
    match sweep clauses (pairsUpTo clauses.length) [] with
    | .foundEmpty => some true
    | .typeError => none
    | .next acc =>
      if acc.all (fun nc => clauses.all (fun c => clSubsetB nc c)) then some false
      else resolutionLoop fuel ((clauses ++ acc).filter (fun c => !acc.any (clEqB c)))

/-- The normalization pipeline of `resolution` (lines 98-105): implication
elimination, negation movement, variable standardization, skolemization,
quantifier movement, universal elimination, CNF conversion — in that order. -/
def resolution_pipeline (s : Str) : Option Str :=
  (skolemization (standardize_variable_scope (move_negation_inward (eliminate_implication s)))).map
    (fun t => convert_to_cnf (eliminate_universal_quantifiers (move_quantifiers_left t)))

/-- The clause list built by `resolution` (lines 97-106) from the input
propositions. -/
def buildClauses (props : List Str) : Option (List Clause) :=
  props.foldl
    (fun acc p => acc.bind (fun cs => (resolution_pipeline p).map (fun f => cs ++ clauses_from_formula f)))
    (some [])

/-- `resolution` (lines 95-122): build the clauses, then run the loop.
`some true` is the source's `True` (contradiction), `some false` its `False`
(no new clauses), `none` an uncaught exception. -/
def resolution (props : List Str) : Option Bool :=
  (buildClauses props).bind (resolutionLoop 1)

/-- The per-proposition normalization used by `print_propositions_in_cnf`
(lines 139-149): same stages, but `move_quantifiers_left` runs BEFORE
`standardize_variable_scope` and `skolemization`. -/
def print_pipeline (s : Str) : Option Str :=
  (skolemization (standardize_variable_scope (move_quantifiers_left (move_negation_inward (eliminate_implication s))))).map
    (fun t => convert_to_cnf (eliminate_universal_quantifiers t))

/-! ### Clause-set semantics

Modelled from the spec: a literal is a polarity plus an atom (the source
encodes a negative literal by the `'¬'` string prefix, see `resolve`); a
clause is the disjunction of its literals; a clause set is satisfiable when
some assignment of truth values to atoms makes every clause true. -/

/-- Truth of a literal string under an assignment of booleans to atoms. -/
def litTrue (v : Str → Bool) (l : Str) : Bool :=
  match l with
  | '¬' :: a => !v a
  | _ => v l

/-- Truth of a clause (disjunction of its literals). -/
def clauseTrue (v : Str → Bool) (c : Clause) : Bool := c.any (litTrue v)

/-- Truth of a clause set (conjunction of its clauses). -/
def clausesTrue (v : Str → Bool) (cs : List Clause) : Bool := cs.all (clauseTrue v)

/-- Modelled from the spec: the resolvent prescribed by §4.3,
`apply(σ, (C1 \ {L1}) ∪ (C2 \ {L2}))`, at the identity substitution (the
source's string-equality test is the degenerate unification of the spec). -/
def spec_resolvent (c1 : Clause) (l1 : Str) (c2 : Clause) (l2 : Str) : Clause :=
  clUnion (clDiff c1 [l1]) (clDiff c2 [l2])

/-! ### General lemmas -/

theorem startsWith_drop : ∀ (v s : Str), startsWith v s = true → v ++ s.drop v.length = s
  | [], s, _ => by simp
  | _ :: _, [], h => by simp [startsWith] at h
  | a :: as, b :: bs, h => by
    simp only [startsWith, Bool.and_eq_true, beq_iff_eq] at h
    obtain ⟨rfl, h2⟩ := h
    simpa using startsWith_drop as bs h2

theorem wordSubGo_self (v : Str) :
    ∀ (n : Nat) (prev : Option Char) (s : Str), wordSubGo v v n prev s = s := by
  intro n
  induction n with
  | zero => intro prev s; rfl
  | succ n ih =>
    intro prev s
    cases s with
    | nil => rfl
    | cons c cs =>
      by_cases h : (!v.isEmpty && startsWith v (c :: cs) && (wordP prev != isWordChar c)
          && boundAfterMatch v (c :: cs)) = true
      · have hs : startsWith v (c :: cs) = true := by
          simp only [Bool.and_eq_true] at h
          exact h.1.1.2
        simp only [wordSubGo, if_pos h, ih]
        exact startsWith_drop v (c :: cs) hs
      · simp only [wordSubGo, if_neg h, ih]

theorem wordSub_self (v s : Str) : wordSub v v s = s := wordSubGo_self v s.length none s

theorem foldl_wordSub_self : ∀ (l : List Str) (s : Str),
    l.foldl (fun f v => wordSub v v f) s = s
  | [], _ => rfl
  | v :: vs, s => by
    rw [List.foldl_cons, wordSub_self]
    exact foldl_wordSub_self vs s

/-- `standardize_variable_scope` never changes its input: every entry of
`variable_map` sends a variable to itself. -/
theorem standardize_id (s : Str) : standardize_variable_scope s = s :=
  foldl_wordSub_self _ s

theorem reSubGo_id_of (m : Str → Option (Str × Str)) (ok : Char → Bool)
    (hm : ∀ c cs, ok c = false → m (c :: cs) = none) :
    ∀ (n : Nat) (s : Str), (∀ c ∈ s, ok c = false) → reSubGo m n s = s := by
  intro n
  induction n with
  | zero => intro s _; rfl
  | succ n ih =>
    intro s hs
    cases s with
    | nil => rfl
    | cons c cs =>
      rw [reSubGo, hm c cs (hs c (List.mem_cons_self c cs)),
        ih cs (fun d hd => hs d (List.mem_cons_of_mem c hd))]

theorem findAllGo_nil_of {γ : Type} (m : Str → Option (γ × Str)) (ok : Char → Bool)
    (hm : ∀ c cs, ok c = false → m (c :: cs) = none) :
    ∀ (n : Nat) (s : Str), (∀ c ∈ s, ok c = false) → findAllGo m n s = [] := by
  intro n
  induction n with
  | zero => intro s _; rfl
  | succ n ih =>
    intro s hs
    cases s with
    | nil => rfl
    | cons c cs =>
      rw [findAllGo, hm c cs (hs c (List.mem_cons_self c cs))]
      exact ih cs (fun d hd => hs d (List.mem_cons_of_mem c hd))

theorem matchForallElim_none (c : Char) (cs : Str) (h : (c == '∀') = false) :
    matchForallElim (c :: cs) = none := by
  simp [matchForallElim, h]

theorem matchSkolemFind_none (c : Char) (cs : Str) (h : (c == '∃') = false) :
    matchSkolemFind (c :: cs) = none := by
  simp [matchSkolemFind, h]

theorem matchQuantStar_none (c : Char) (cs : Str) (h : (c == '∀' || c == '∃') = false) :
    matchQuantStar (c :: cs) = none := by
  simp only [matchQuantStar, h, Bool.false_eq_true, if_false]

/-- Without a `∀` in the string, `eliminate_universal_quantifiers` is the
identity. -/
theorem elimUniv_id (s : Str) (h : ('∀' : Char) ∉ s) :
    eliminate_universal_quantifiers s = s := by
  apply reSubGo_id_of matchForallElim (fun c => c == '∀') matchForallElim_none
  intro c hc
  simp only [beq_eq_false_iff_ne, ne_eq]
  rintro rfl
  exact h hc

/-- Without an `∃` in the string, `skolemization` finds no existentials and
returns its input. -/
theorem skolemization_id (s : Str) (h : ('∃' : Char) ∉ s) : skolemization s = some s := by
  unfold skolemization findAll
  rw [findAllGo_nil_of matchSkolemFind (fun c => c == '∃') matchSkolemFind_none]
  · rfl
  · intro c hc
    simp only [beq_eq_false_iff_ne, ne_eq]
    rintro rfl
    exact h hc

/-- Without quantifier symbols, `move_quantifiers_left` only prepends one
space (the `' '.join([]) + ' '` of line 43). -/
theorem move_left_prepends (s : Str) (h1 : ('∀' : Char) ∉ s) (h2 : ('∃' : Char) ∉ s) :
    move_quantifiers_left s = ' ' :: s := by
  unfold move_quantifiers_left findAll
  rw [findAllGo_nil_of matchQuantStar (fun c => c == '∀' || c == '∃') matchQuantStar_none]
  · rfl
  · intro c hc
    simp only [Bool.or_eq_false_iff, beq_eq_false_iff_ne, ne_eq]
    constructor
    · rintro rfl; exact h1 hc
    · rintro rfl; exact h2 hc

theorem sweep_next_acc (clauses : List Clause) :
    ∀ (ps : List (Nat × Nat)) (acc r : List Clause), sweep clauses ps acc = .next r → r = acc := by
  intro ps
  induction ps with
  | nil =>
    intro acc r h
    cases h
    rfl
  | cons p rest ih =>
    intro acc r h
    obtain ⟨i, j⟩ := p
    simp only [sweep] at h
    split at h
    · cases h
    · split at h
      · exact ih acc r h
      · cases h

/-- One unit of fuel already decides `resolutionLoop`: a sweep either derives
the empty clause, raises `TypeError`, or leaves `new_clauses` empty (so
line 119's vacuous `all` returns `False`); the `while True` loop never reaches
a second iteration. -/
theorem resolutionLoop_fuel_aux (fuel : Nat) (cs : List Clause) :
    resolutionLoop (fuel + 1) cs = resolutionLoop 1 cs := by
  simp only [resolutionLoop]
  cases h : sweep cs (pairsUpTo cs.length) [] with
  | foundEmpty => rfl
  | typeError => rfl
  | next acc =>
    have hacc : acc = [] := sweep_next_acc cs _ [] acc h
    subst hacc
    rfl

/-! ### Claim theorems -/

/-- C1: the claim "if the resolution procedure reports CONTRADICTION (returns
true) then the clause set is unsatisfiable" fails on the code.  On the
propositions `q∧p∨¬p` (twice) the engine returns `True`, yet the very clause
set the code builds — `{' q'}, {'p','¬p'}, {' q'}, {'p','¬p'}` — is satisfied
by the all-true assignment (as are the input formulas `q ∧ (p ∨ ¬p)`).  The
cause is `resolve` removing BOTH resolved literals from the union: the
tautology clause `{'p','¬p'}` resolved against its duplicate yields the empty
clause. -/
theorem resolution_true_on_satisfiable_set :
    resolution [str "q∧p∨¬p", str "q∧p∨¬p"] = some true ∧
      (buildClauses [str "q∧p∨¬p", str "q∧p∨¬p"]).map
        (clausesTrue (fun _ => true)) = some true := by
  constructor
  · decide
  · decide

/-- C2: the claim states the resolvent is `(C1 \ {L1}) ∪ (C2 \ {L2})`.  On
`C1 = {'p'}`, `C2 = {'¬p','p'}`, resolving `L1 = 'p'` against `L2 = '¬p'`,
the code (`(C1 | C2) - {L1, L2}`) produces the empty clause, while the
claim's formula keeps the copy of `'p'` contributed by `C2 \ {L2}` and
produces `{'p'}`. -/
theorem resolve_drops_shared_resolved_literal :
    resolve [str "p"] [str "¬p", str "p"] = [[]] ∧
      spec_resolvent [str "p"] (str "p") [str "¬p", str "p"] (str "¬p") = [str "p"] ∧
      ([] : Clause) ≠ [str "p"] := by
  refine ⟨by decide, by decide, by decide⟩

/-- C3: on `{P(a)}, {Q(a)}` the engine indeed returns the satisfiable verdict
(`False`), but the general claim "an iteration that produces no new,
non-subsumed clause reports SATURATED" fails: on `z∧p∨q, z∧¬p∨q, z∧q` the
only resolvent is `{'q'}`, a clause already in the set, yet the code raises
`TypeError` (adding a `set` to `new_clauses`) instead of reporting
SATURATED. -/
theorem resolution_crashes_instead_of_saturating :
    resolution [str "z∧p∨q", str "z∧¬p∨q", str "z∧q"] = none ∧
      resolution [str "P(a)", str "Q(a)"] = some false := by
  refine ⟨by decide, by decide⟩

/-- C4: skolemization does not build Skolem terms.  On `∀x ∃y P(y)` — the
claim's shape with k = 1 — the `findall` captures `var = 'P'` (the character
after the whitespace, not the bound variable), and the deletion branch erases
`∃y P`, leaving `∀x (y)`: no Skolem function of `x` is introduced and `y`
is left behind.  On `∃yy P(y)` the `(.?)\s` pattern does not match the
two-character variable, so the existential quantifier survives. -/
theorem skolemization_erases_predicate :
    skolemization (str "∀x ∃y P(y)") = some (str "∀x (y)") ∧
      skolemization (str "∃yy P(y)") = some (str "∃yy P(y)") := by
  refine ⟨by decide, by decide⟩

/-- C5: on the deliberately colliding input `(∀x P(x)) ∨ (∃x Q(x))` the
standardization stage returns its input unchanged, and the two quantifier
matches it finds both bind the name `x` — the output violates the claimed
variable-apart postcondition. -/
theorem standardize_leaves_colliding_binders :
    standardize_variable_scope (str "(∀x P(x)) ∨ (∃x Q(x))") = str "(∀x P(x)) ∨ (∃x Q(x))" ∧
      (findAll matchQuant3 (str "(∀x P(x)) ∨ (∃x Q(x))")).map (fun g => g.2.1)
/- both quantifiers still bind the same variable name -/ = [str "x", str "x"] := by
  refine ⟨standardize_id _, by decide⟩

/-- C6: the implication rewrite only fires when each operand is at most one
character (`(.?)`), so `(pp ⇒ q)` is returned unchanged with its `⇒` intact,
contradicting the claim that arbitrary subformulas are rewritten and no
`Implies` remains; the one-character case does get rewritten. -/
theorem eliminate_implication_single_char_only :
    eliminate_implication (str "(pp ⇒ q)") = str "(pp ⇒ q)" ∧
      ('⇒' : Char) ∈ eliminate_implication (str "(pp ⇒ q)") ∧
      eliminate_implication (str "(p ⇒ q)") = str "(¬p ∨ q)" := by
  refine ⟨by decide, by decide, by decide⟩

/-- C7: `move_negation_inward` is not idempotent.  On `¬∀x ¬∃y p` one
application produces `∃x ¬∀y ¬p` (the `¬∃` rewrite re-creates a `¬∀` redex
after the `¬∀` pass already ran), and a second application simplifies it
further to `∃x ∃y p`. -/
theorem move_negation_inward_not_idempotent :
    move_negation_inward (move_negation_inward (str "¬∀x ¬∃y p"))
        ≠ move_negation_inward (str "¬∀x ¬∃y p") ∧
      move_negation_inward (str "¬∀x ¬∃y p") = str "∃x ¬∀y ¬p" ∧
      move_negation_inward (str "∃x ¬∀y ¬p") = str "∃x ∃y p" := by
  refine ⟨by decide, by decide, by decide⟩

/-- C8 (counterexample): the engine's result is not tri-state.  On
`r∧p∨s, r∧¬p` the sweep produces the non-empty resolvent `{'s'}` and the code
raises an uncaught `TypeError` (no CONTRADICTION, SATURATED, or UNKNOWN
verdict at all), while on a single unresolvable proposition it returns the
plain boolean `False`. -/
theorem resolution_raises_instead_of_unknown :
    resolution [str "r∧p∨s", str "r∧¬p"] = none ∧ resolution [str "u"] = some false := by
  refine ⟨by decide, by decide⟩

/-- C8 (amended): the loop consults no budget — any fuel beyond the first
sweep is irrelevant, because every sweep returns `True`, raises `TypeError`,
or leaves `new_clauses` empty and returns `False`. -/
theorem resolutionLoop_fuel_irrelevant (fuel : Nat) (cs : List Clause) :
    resolutionLoop (fuel + 1) cs = resolutionLoop 1 cs :=
  resolutionLoop_fuel_aux fuel cs

/-- C9 (counterexample): the two normalization call sites disagree on
`∃x Q ∨ R`.  In `resolution`'s order, skolemization deletes `∃x Q` first and
`move_quantifiers_left` then finds no quantifier and prepends an extra space
(`'  ∨ R'`); in `print_propositions_in_cnf`'s order, `move_quantifiers_left`
runs first and rebuilds `∃x Q ∨ R`, after which skolemization deletes
`∃x Q` to give `' ∨ R'`. -/
theorem pipelines_differ_on_quantified_input :
    resolution_pipeline (str "∃x Q ∨ R") = some (str "  ∨ R") ∧
      print_pipeline (str "∃x Q ∨ R") = some (str " ∨ R") ∧
      resolution_pipeline (str "∃x Q ∨ R") ≠ print_pipeline (str "∃x Q ∨ R") := by
  refine ⟨by decide, by decide, by decide⟩

/-- C9 (amended): the two call-site orders agree on every input whose
implication-free negation normal form contains no quantifier symbol: there
standardization and skolemization are no-ops, and both orders reduce to
prepending one space and running universal-elimination and CNF conversion on
the same string. -/
theorem pipelines_agree_on_quantifier_free (s : Str)
    (h1 : ('∀' : Char) ∉ move_negation_inward (eliminate_implication s))
    (h2 : ('∃' : Char) ∉ move_negation_inward (eliminate_implication s)) :
    resolution_pipeline s = print_pipeline s := by
  unfold resolution_pipeline print_pipeline
  have h1s : ('∀' : Char) ∉ ' ' :: move_negation_inward (eliminate_implication s) := by
    intro hmem
    rcases List.mem_cons.mp hmem with h | h
    · exact absurd h (by decide)
    · exact h1 h
  have h2s : ('∃' : Char) ∉ ' ' :: move_negation_inward (eliminate_implication s) := by
    intro hmem
    rcases List.mem_cons.mp hmem with h | h
    · exact absurd h (by decide)
    · exact h2 h
  rw [standardize_id, skolemization_id _ h2, move_left_prepends _ h1 h2, standardize_id,
    skolemization_id _ h2s, Option.map_some', Option.map_some',
    move_left_prepends _ h1 h2, elimUniv_id _ h1s]

/-- C9 (witness for the amended theorem): on `p ∨ q` the hypotheses hold and
the two pipelines agree. -/
theorem pipelines_agree_on_quantifier_free_witness :
    (('∀' : Char) ∉ move_negation_inward (eliminate_implication (str "p ∨ q"))) ∧
      (('∃' : Char) ∉ move_negation_inward (eliminate_implication (str "p ∨ q"))) ∧
      resolution_pipeline (str "p ∨ q") = print_pipeline (str "p ∨ q") :=
  ⟨by decide, by decide,
    pipelines_agree_on_quantifier_free (str "p ∨ q") (by decide) (by decide)⟩

/-- C10: `standardize_variable_scope` is the identity on every input string —
the `variable_map` it builds sends every captured variable name to itself, so
the word-bounded substitution pass replaces each occurrence by itself. -/
theorem standardize_variable_scope_identity (s : Str) :
    standardize_variable_scope s = s :=
  standardize_id s
